import Mathlib

/-!
Shallow embedding of the input-remapping engine in
`src/src/event_handler/mod.rs` (the `EventHandler` core), together with
proofs settling the frozen claims about it.

Conventions of the embedding:
* machine floats (`f64`) are modelled as real numbers `ℝ`; the Rust
  saturating-truncating cast `as i16` is `f64_as_i16` below;
* time (`Instant` / `Duration`) is modelled in seconds as `ℚ`, read from
  the same monotone clock everywhere (only differences are compared);
* the `HashMap` configuration tables are modelled as association lists;
* the only observable interaction with the tone generator is the list of
  `enable` calls a function performs, collected as a `List Prop` (one
  entry per call, the entry being the boolean argument of that call).
-/

namespace RLM2C

/-- Modelled from the spec: transition state of a physical key or mouse
button (`KeyState` of the repository's `types` module, which is not among
the provided sources). -/
inductive KeyState where
  | Up
  | Down
deriving DecidableEq, Repr

/-- Modelled from the spec: mouse button identifiers (`MouseButton` of the
repository's `types` module). The core only distinguishes `Left` and
`Right`; further buttons behave like `Middle` here. -/
inductive MouseButton where
  | Left
  | Right
  | Middle
deriving DecidableEq, Repr

/-- Modelled from the spec: a digital controller target (`ControllerButton`
of the repository's `types` module). The two triggers are special-cased by
the handler; every other button is identified by its `u16` bitmask value
(the source converts it with `button as u16` / `XButton::from_bits`). -/
inductive ControllerButton where
  | LeftTrigger
  | RightTrigger
  | Flag (bits : Nat)
deriving DecidableEq, Repr

/-- `Bind` from src/src/event_handler/mod.rs: a physical input. Keyboard
scan codes (the `interception` crate) are represented by their numeric
values. -/
inductive Bind where
  | Keyboard (scancode : Nat)
  | Mouse (button : MouseButton)
deriving DecidableEq, Repr

/-- `DodgeAction` from src/src/event_handler/mod.rs. -/
inductive DodgeAction where
  | Jump
  | Forwards
  | Backwards
  | Left
  | Right
deriving DecidableEq, Repr

/-- `ControllerAction` from src/src/event_handler/mod.rs. -/
inductive ControllerAction where
  | Button (button : ControllerButton)
  | Analog (x y : ℝ)

/-- Modelled from the spec: the input-event stream (`Event` of the
repository's `types` module): motion deltas, button/key transitions and an
explicit reset. -/
inductive Event where
  | MouseMove (x y : Int)
  | MouseButton (button : MouseButton) (state : KeyState)
  | Keyboard (scancode : Nat) (state : KeyState)
  | Reset

/-- Modelled from the spec: the virtual-controller report (`XUSBReport` of
the external vigem crate): one digital-button bitmask, two 8-bit trigger
magnitudes and two 16-bit signed sticks. -/
structure XUSBReport where
  w_buttons : Nat
  b_left_trigger : Nat
  b_right_trigger : Nat
  s_thumb_lx : Int
  s_thumb_ly : Int
  s_thumb_rx : Int
  s_thumb_ry : Int
deriving DecidableEq, Repr

/-- Modelled from the spec: `XUSBReport::default()` is the all-zero
report. -/
def XUSBReport.default : XUSBReport :=
  { w_buttons := 0, b_left_trigger := 0, b_right_trigger := 0,
    s_thumb_lx := 0, s_thumb_ly := 0, s_thumb_rx := 0, s_thumb_ry := 0 }

/-- `Config` from src/src/event_handler/mod.rs (the tone-generator
sub-config is out of scope; durations are in seconds). -/
structure Config where
  sensitivity : ℝ
  sample_window : ℚ
  dodge_lock_duration : ℚ
  spin_period : ℚ
  oversteer_alert_enabled : Bool
  oversteer_alert_threshold : ℝ
  analog_mask : Bool × Bool
  analog_circularize : Bool
  mouse_button_fix : Bool
  binds : List (Bind × ControllerAction)
  dodge_binds : List (DodgeAction × Bind)

/-- One mouse-motion sample `(dx, dy, timestamp)` as queued by
`handle_mouse_move`. -/
abbrev MouseSample := Int × Int × ℚ

/-- The mutable state of `EventHandler` that the core logic touches. -/
structure EngineState where
  report : XUSBReport
  mouse_samples : List MouseSample
  mouse_button_states : KeyState × KeyState
  analog_locked : Bool
  analog_lock_end : ℚ
  analog_lock_x : ℝ
  analog_lock_y : ℝ

/-- The loop-local `w a s d` trackers of `EventHandler::run` together with
the engine state. -/
structure LoopState where
  engine : EngineState
  w : Bool
  a : Bool
  s : Bool
  d : Bool

/-- `HashMap::get` on the bind table, as an association-list lookup. -/
def findAction : List (Bind × ControllerAction) → Bind → Option ControllerAction
  | [], _ => none
  | (b, act) :: rest, bind => if b = bind then some act else findAction rest bind

/-- `HashMap::get` on the dodge-bind table. -/
def findDodgeBind : List (DodgeAction × Bind) → DodgeAction → Option Bind
  | [], _ => none
  | (act, b) :: rest, action => if act = action then some b else findDodgeBind rest action

/-- The front-eviction loop at the start of `EventHandler::update_analog`
(lines 367-378): pop from the front while the front sample's age strictly
exceeds the sampling window, stopping at the first sample in the window. -/
def evict (window now : ℚ) : List MouseSample → List MouseSample
  | [] => []
  | sample :: rest =>
    if now - sample.2.2 > window then evict window now rest else sample :: rest

/-- The summation loop of `EventHandler::update_analog` (lines 396-401):
unweighted component-wise sum of the remaining samples. -/
def sampleSum (samples : List MouseSample) : Int × Int :=
  samples.foldl (fun acc sample => (acc.1 + sample.1, acc.2 + sample.2.1)) (0, 0)

/-- Bitwise complement on a `u16` mask (`!button_flag` in the source). -/
def u16_not (bits : Nat) : Nat := 65535 ^^^ bits

/-- The digital branch of `EventHandler::handle_bind` (lines 281-300):
write a trigger magnitude or set/clear a button bit. -/
def applyButton (r : XUSBReport) (cb : ControllerButton) (state : KeyState) : XUSBReport :=
  match cb with
  | ControllerButton.LeftTrigger =>
    match state with
    | KeyState.Down => { r with b_left_trigger := 255 }
    | KeyState.Up => { r with b_left_trigger := 0 }
  | ControllerButton.RightTrigger =>
    match state with
    | KeyState.Down => { r with b_right_trigger := 255 }
    | KeyState.Up => { r with b_right_trigger := 0 }
  | ControllerButton.Flag bits =>
    match state with
    | KeyState.Down => { r with w_buttons := r.w_buttons ||| bits }
    | KeyState.Up => { r with w_buttons := r.w_buttons &&& u16_not bits }

/-- `EventHandler::dodge_action_pressed` (lines 338-357). -/
def dodge_action_pressed (cfg : Config) (r : XUSBReport) (action : DodgeAction) : Bool :=
  match findDodgeBind cfg.dodge_binds action with
  | none => false
  | some bind =>
    match findAction cfg.binds bind with
    | some (ControllerAction.Button ControllerButton.LeftTrigger) =>
      decide (0 < r.b_left_trigger)
    | some (ControllerAction.Button ControllerButton.RightTrigger) =>
      decide (0 < r.b_right_trigger)
    | some (ControllerAction.Button (ControllerButton.Flag bits)) =>
      decide (r.w_buttons &&& bits = bits)
    | _ => false

/-- The W/A/S/D left-stick write of `EventHandler::run` (lines 230-239),
performed on every keyboard event from the current tracker values. -/
def wasd_write (r : XUSBReport) (w a s d : Bool) : XUSBReport :=
  let r1 := { r with s_thumb_ly := if w = s then 0 else if w = true then 32767 else -32768 }
  { r1 with s_thumb_lx := if a = d then 0 else if d = true then 32767 else -32768 }

/-- The `Event::Reset` arm of `EventHandler::run` (lines 242-246). -/
def handle_reset (st : EngineState) : EngineState :=
  { st with
    mouse_button_states := (KeyState.Up, KeyState.Up),
    report := XUSBReport.default }

/-- `interception::ScanCode::W` (PS/2 set-1 value). -/
def scanW : Nat := 17

/-- `interception::ScanCode::A`. -/
def scanA : Nat := 30

/-- `interception::ScanCode::S`. -/
def scanS : Nat := 31

/-- `interception::ScanCode::D`. -/
def scanD : Nat := 32

noncomputable section

/-- `EventHandler::ANALOG_MAX = -(i16::MIN as f64)` (line 117). -/
def ANALOG_MAX : ℝ := 32768

/-- `f64::atan2`: `atan2 y x` is the argument of the complex number
`x + y i`, with the same range and conventions. -/
def atan2 (y x : ℝ) : ℝ := Complex.arg ⟨x, y⟩

/-- Truncation toward zero, the rounding used by Rust's float-to-integer
`as` casts. -/
def truncToInt (z : ℝ) : Int := if 0 ≤ z then ⌊z⌋ else ⌈z⌉

/-- Rust's saturating `f64 as i16` cast: truncate toward zero and clamp
into the `i16` range. -/
def f64_as_i16 (z : ℝ) : Int := max (-32768) (min 32767 (truncToInt z))

/-- The real-valued vector computed by `EventHandler::set_analog_circularized`
(lines 432-438) before the `as i16` casts: angle/radius round trip with no
radius clamp. -/
def setAnalogCircularizedVec (x y : ℝ) : ℝ × ℝ :=
  (Real.cos (atan2 y x) * Real.sqrt (x ^ 2 + y ^ 2) * ANALOG_MAX,
   Real.sin (atan2 y x) * Real.sqrt (x ^ 2 + y ^ 2) * ANALOG_MAX)

/-- The spec's circularized shaping, stated from its words (section 4.4):
`radius = min (hypot x y) radius_limit` with `radius_limit = 1` since no
limit feature is present. Declared only for comparison with
`setAnalogCircularizedVec`, which is the source's computation. -/
def setAnalogCircularizedSpecVec (x y : ℝ) : ℝ × ℝ :=
  (Real.cos (atan2 y x) * min (Real.sqrt (x ^ 2 + y ^ 2)) 1 * ANALOG_MAX,
   Real.sin (atan2 y x) * min (Real.sqrt (x ^ 2 + y ^ 2)) 1 * ANALOG_MAX)

/-- The real-valued vector computed by `EventHandler::set_analog_linear`
(lines 440-457) before the `as i16` casts: direct per-axis scaling inside
the unit square, otherwise the angle/radius projection with the radius
divided by the overshoot `max |x| |y|`. -/
def setAnalogLinearVec (x y : ℝ) : ℝ × ℝ :=
  if |x| ≤ 1 ∧ |y| ≤ 1 then (x * ANALOG_MAX, y * ANALOG_MAX)
  else
    (Real.cos (atan2 y x) * (Real.sqrt (x ^ 2 + y ^ 2) / max |x| |y|) * ANALOG_MAX,
     Real.sin (atan2 y x) * (Real.sqrt (x ^ 2 + y ^ 2) / max |x| |y|) * ANALOG_MAX)

/-- `EventHandler::set_analog_circularized` as a report transformer: it
writes the left stick. -/
def set_analog_circularized (r : XUSBReport) (x y : ℝ) : XUSBReport :=
  { r with
    s_thumb_lx := f64_as_i16 (setAnalogCircularizedVec x y).1,
    s_thumb_ly := f64_as_i16 (setAnalogCircularizedVec x y).2 }

/-- `EventHandler::set_analog_linear` as a report transformer: it writes
the right stick (both of its branches do). -/
def set_analog_linear (r : XUSBReport) (x y : ℝ) : XUSBReport :=
  { r with
    s_thumb_rx := f64_as_i16 (setAnalogLinearVec x y).1,
    s_thumb_ry := f64_as_i16 (setAnalogLinearVec x y).2 }

/-- `EventHandler::set_analog` (lines 421-430): one tone-generator
`enable` call when the generator is configured (its argument compares
`max |x| |y|` against the threshold), then dispatch on
`analog_circularize`. -/
def set_analog (cfg : Config) (r : XUSBReport) (x y : ℝ) : XUSBReport × List Prop :=
  (if cfg.analog_circularize = true then set_analog_circularized r x y
   else set_analog_linear r x y,
   if cfg.oversteer_alert_enabled = true
   then [max |x| |y| ≥ cfg.oversteer_alert_threshold] else [])

/-- The dodge vector computed by `EventHandler::handle_jump`
(lines 317-330): each currently pressed directional gesture adds `±1`
to its axis (index 0 is x, index 1 is y). -/
def dodgeVector (cfg : Config) (r : XUSBReport) : ℝ × ℝ :=
  let actions : List (DodgeAction × Nat × ℝ) :=
    [(DodgeAction.Forwards, 1, 1), (DodgeAction.Backwards, 1, -1),
     (DodgeAction.Left, 0, -1), (DodgeAction.Right, 0, 1)]
  actions.foldl
    (fun analog adi =>
      if dodge_action_pressed cfg r adi.1 = true then
        if adi.2.1 = 0 then (analog.1 + adi.2.2, analog.2)
        else (analog.1, analog.2 + adi.2.2)
      else analog)
    (0, 0)

/-- `EventHandler::handle_jump` (lines 313-336). -/
def handle_jump (cfg : Config) (st : EngineState) (now : ℚ) : EngineState × List Prop :=
  let st1 := { st with analog_locked := true, analog_lock_end := now + cfg.dodge_lock_duration }
  let v := dodgeVector cfg st1.report
  let st2 := { st1 with analog_lock_x := v.1, analog_lock_y := v.2 }
  ({ st2 with report := (set_analog cfg st2.report v.1 v.2).1 },
   (set_analog cfg st2.report v.1 v.2).2)

/-- `EventHandler::handle_bind` (lines 272-311): look up the bind; analog
actions and unbound inputs return immediately; digital actions mutate the
report, and a press of the jump bind triggers dodge resolution. -/
def handle_bind (cfg : Config) (st : EngineState) (bind : Bind) (state : KeyState)
    (now : ℚ) : EngineState × List Prop :=
  match findAction cfg.binds bind with
  | none => (st, [])
  | some (ControllerAction.Analog _ _) => (st, [])
  | some (ControllerAction.Button cb) =>
    let st1 := { st with report := applyButton st.report cb state }
    if state = KeyState.Up then (st1, [])
    else
      match findDodgeBind cfg.dodge_binds DodgeAction.Jump with
      | some jumpBind => if jumpBind = bind then handle_jump cfg st1 now else (st1, [])
      | none => (st1, [])

/-- The vector that `EventHandler::update_analog` (lines 364-419) hands to
`set_analog_linear`: masked unweighted sums of the in-window samples,
scaled by `sensitivity / (1e4 * sample_window_seconds)`, with the y
component negated. -/
def updateAnalogVec (cfg : Config) (samples : List MouseSample) (now : ℚ) : ℝ × ℝ :=
  ((if cfg.analog_mask.1 = true
    then ((sampleSum (evict cfg.sample_window now samples)).1 : ℝ) else 0) *
     (cfg.sensitivity / (10000 * (cfg.sample_window : ℝ))),
   (-(if cfg.analog_mask.2 = true
      then ((sampleSum (evict cfg.sample_window now samples)).2 : ℝ) else 0)) *
     (cfg.sensitivity / (10000 * (cfg.sample_window : ℝ))))

/-- `EventHandler::update_analog` (lines 364-419): evict expired samples,
then write the linear-shaped mouse vector. The lock fields are not read. -/
def update_analog (cfg : Config) (st : EngineState) (now : ℚ) : EngineState :=
  { st with
    mouse_samples := evict cfg.sample_window now st.mouse_samples,
    report := set_analog_linear st.report (updateAnalogVec cfg st.mouse_samples now).1
      (updateAnalogVec cfg st.mouse_samples now).2 }

/-- The `Event::MouseButton` arm of `EventHandler::run` (lines 182-202):
track left/right button state, resolve the bind, and with
`mouse_button_fix` re-press a still-held button on release events. -/
def mouse_button_arm (cfg : Config) (st : EngineState) (button : MouseButton)
    (state : KeyState) (now : ℚ) : EngineState × List Prop :=
  let stA := if button = MouseButton.Left
    then { st with mouse_button_states := (state, st.mouse_button_states.2) } else st
  let stB := if button = MouseButton.Right
    then { stA with mouse_button_states := (stA.mouse_button_states.1, state) } else stA
  let res := handle_bind cfg stB (Bind.Mouse button) state now
  if cfg.mouse_button_fix = true ∧ state = KeyState.Up then
    let res2 := if res.1.mouse_button_states.1 = KeyState.Down
      then handle_bind cfg res.1 (Bind.Mouse MouseButton.Left) KeyState.Down now
      else (res.1, [])
    let res3 := if res2.1.mouse_button_states.2 = KeyState.Down
      then handle_bind cfg res2.1 (Bind.Mouse MouseButton.Right) KeyState.Down now
      else (res2.1, [])
    (res3.1, res.2 ++ res2.2 ++ res3.2)
  else res

/-- The `Event::Keyboard` arm of `EventHandler::run` (lines 204-240):
resolve the bind, update the W/A/S/D trackers, and write the left stick
from them. -/
def keyboard_arm (cfg : Config) (ls : LoopState) (scancode : Nat) (state : KeyState)
    (now : ℚ) : LoopState × List Prop :=
  let res := handle_bind cfg ls.engine (Bind.Keyboard scancode) state now
  let w := if state = KeyState.Up ∧ scancode = scanW then false
    else if state = KeyState.Down ∧ scancode = scanW then true else ls.w
  let a := if state = KeyState.Up ∧ scancode = scanA then false
    else if state = KeyState.Down ∧ scancode = scanA then true else ls.a
  let s := if state = KeyState.Up ∧ scancode = scanS then false
    else if state = KeyState.Down ∧ scancode = scanS then true else ls.s
  let d := if state = KeyState.Up ∧ scancode = scanD then false
    else if state = KeyState.Down ∧ scancode = scanD then true else ls.d
  ({ engine := { res.1 with report := wasd_write res.1.report w a s d },
     w := w, a := a, s := s, d := d }, res.2)

/-- Event dispatch of one loop iteration (lines 178-247). -/
def dispatchEvent (cfg : Config) (ls : LoopState) (ev : Event) (now : ℚ) :
    LoopState × List Prop :=
  match ev with
  | Event.MouseMove x y =>
    ({ ls with engine :=
        { ls.engine with mouse_samples := ls.engine.mouse_samples ++ [(x, y, now)] } }, [])
  | Event.MouseButton button state =>
    ({ ls with engine := (mouse_button_arm cfg ls.engine button state now).1 },
     (mouse_button_arm cfg ls.engine button state now).2)
  | Event.Keyboard scancode state => keyboard_arm cfg ls scancode state now
  | Event.Reset => ({ ls with engine := handle_reset ls.engine }, [])

/-- One iteration of `EventHandler::run` after the spin wait (lines
170-250): dispatch at most one event, then unconditionally recompute the
analog output. The returned list collects the tone-generator calls of the
iteration. -/
def tick (cfg : Config) (ls : LoopState) (ev : Option Event) (now : ℚ) :
    LoopState × List Prop :=
  match ev with
  | none => ({ ls with engine := update_analog cfg ls.engine now }, [])
  | some e =>
    ({ (dispatchEvent cfg ls e now).1 with
       engine := update_analog cfg (dispatchEvent cfg ls e now).1.engine now },
     (dispatchEvent cfg ls e now).2)

/-- A configuration with the source's default numeric values (sensitivity
1, dodge lock 50 ms, circularized shaping, both mask axes on, alerts off)
except for a 1-second sampling window, and no binds. -/
def cfg0 : Config :=
  { sensitivity := 1, sample_window := 1, dodge_lock_duration := 1/20,
    spin_period := 1/500, oversteer_alert_enabled := false,
    oversteer_alert_threshold := 3/2, analog_mask := (true, true),
    analog_circularize := true, mouse_button_fix := false,
    binds := [], dodge_binds := [] }

/-- `cfg0` with the oversteer alert enabled. -/
def cfgAlert : Config := { cfg0 with oversteer_alert_enabled := true }

/-- `cfg0` with one analog-override bind on scan code 17. -/
def cfgAnalog : Config :=
  { cfg0 with binds := [(Bind.Keyboard 17, ControllerAction.Analog (1/2) (1/2))] }

/-- `cfg0` with W and A as digital buttons and bound to the Forwards and
Left dodge gestures. -/
def cfg5 : Config :=
  { cfg0 with
    binds := [(Bind.Keyboard scanW, ControllerAction.Button (ControllerButton.Flag 1)),
              (Bind.Keyboard scanA, ControllerAction.Button (ControllerButton.Flag 2))],
    dodge_binds := [(DodgeAction.Forwards, Bind.Keyboard scanW),
                    (DodgeAction.Left, Bind.Keyboard scanA)] }

/-- The all-zero report. -/
def report0 : XUSBReport := XUSBReport.default

/-- The initial engine state built by `EventHandler::new`. -/
def st0 : EngineState :=
  { report := report0, mouse_samples := [],
    mouse_button_states := (KeyState.Up, KeyState.Up),
    analog_locked := false, analog_lock_end := 0,
    analog_lock_x := 0, analog_lock_y := 0 }

/-- The initial loop state of `EventHandler::run`. -/
def ls0 : LoopState := { engine := st0, w := false, a := false, s := false, d := false }

/-- `st0` with two queued mouse samples. -/
def st3 : EngineState := { st0 with mouse_samples := [(1, 2, 0), (3, 4, 10)] }

/-- A report with buttons 1 and 2 held (W and A of `cfg5`). -/
def r5 : XUSBReport := { report0 with w_buttons := 3 }

/-- An engine state as it stands right after a dodge jump resolved under
`cfg0` at time 0 with Forwards held (button bit 1) and the jump button bit
4: lock active until `1/20` s, locked vector `(0, 1)`, its circularized
projection `32767` already written to the left stick, and one still-queued
mouse sample `(5000, 0)`. -/
def stJ : EngineState :=
  { report := { w_buttons := 5, b_left_trigger := 0, b_right_trigger := 0,
                s_thumb_lx := 0, s_thumb_ly := 32767, s_thumb_rx := 0, s_thumb_ry := 0 },
    mouse_samples := [(5000, 0, 0)],
    mouse_button_states := (KeyState.Up, KeyState.Up),
    analog_locked := true, analog_lock_end := 1/20,
    analog_lock_x := 0, analog_lock_y := 1 }

end

theorem abs_mk (x y : ℝ) : Complex.abs ⟨x, y⟩ = Real.sqrt (x ^ 2 + y ^ 2) := by
  rw [Complex.abs_apply, Complex.normSq_mk]
  ring_nf

theorem mk_eq_zero_iff (x y : ℝ) : (⟨x, y⟩ : ℂ) = 0 ↔ x = 0 ∧ y = 0 := by
  simp [Complex.ext_iff]

theorem cos_atan2_mul (x y : ℝ) :
    Real.cos (atan2 y x) * Real.sqrt (x ^ 2 + y ^ 2) = x := by
  rw [← abs_mk x y, atan2]
  by_cases h : (⟨x, y⟩ : ℂ) = 0
  · have hx : x = 0 := ((mk_eq_zero_iff x y).mp h).1
    rw [h]
    simp [hx]
  · rw [Complex.cos_arg h]
    have habs : Complex.abs ⟨x, y⟩ ≠ 0 := by
      simpa [Complex.abs.eq_zero] using h
    field_simp

theorem sin_atan2_mul (x y : ℝ) :
    Real.sin (atan2 y x) * Real.sqrt (x ^ 2 + y ^ 2) = y := by
  rw [← abs_mk x y, atan2]
  by_cases h : (⟨x, y⟩ : ℂ) = 0
  · have hy : y = 0 := ((mk_eq_zero_iff x y).mp h).2
    rw [h]
    simp [hy]
  · rw [Complex.sin_arg]
    have habs : Complex.abs ⟨x, y⟩ ≠ 0 := by
      simpa [Complex.abs.eq_zero] using h
    field_simp

theorem circ_vec_eq (x y : ℝ) :
    setAnalogCircularizedVec x y = (x * ANALOG_MAX, y * ANALOG_MAX) := by
  unfold setAnalogCircularizedVec
  rw [cos_atan2_mul, sin_atan2_mul]

theorem truncToInt_intCast (n : ℤ) : truncToInt (n : ℝ) = n := by
  unfold truncToInt
  split
  · exact Int.floor_intCast n
  · exact Int.ceil_intCast n

theorem f64_as_i16_intCast (n : ℤ) (h1 : -32768 ≤ n) (h2 : n ≤ 32767) :
    f64_as_i16 (n : ℝ) = n := by
  unfold f64_as_i16
  rw [truncToInt_intCast, min_eq_right h2, max_eq_right h1]

theorem f64_as_i16_eval (z : ℝ) (n : ℤ) (hz : z = (n : ℝ)) (h1 : -32768 ≤ n)
    (h2 : n ≤ 32767) : f64_as_i16 z = n := by
  rw [hz]
  exact f64_as_i16_intCast n h1 h2

theorem f64_as_i16_bounds (z : ℝ) : -32768 ≤ f64_as_i16 z ∧ f64_as_i16 z ≤ 32767 :=
  ⟨le_max_left _ _, max_le (by norm_num) (min_le_left _ _)⟩

theorem linear_vec_small (x y : ℝ) (h : max |x| |y| ≤ 1) :
    setAnalogLinearVec x y = (x * ANALOG_MAX, y * ANALOG_MAX) := by
  unfold setAnalogLinearVec
  rw [if_pos ⟨(max_le_iff.mp h).1, (max_le_iff.mp h).2⟩]

theorem linear_vec_big (x y : ℝ) (h : 1 < max |x| |y|) :
    setAnalogLinearVec x y =
      (x * (ANALOG_MAX / max |x| |y|), y * (ANALOG_MAX / max |x| |y|)) := by
  unfold setAnalogLinearVec
  rw [if_neg (by
    intro hc
    exact absurd h (not_lt.mpr (max_le hc.1 hc.2)))]
  have h1 := cos_atan2_mul x y
  have h2 := sin_atan2_mul x y
  have e1 : Real.cos (atan2 y x) * (Real.sqrt (x ^ 2 + y ^ 2) / max |x| |y|) * ANALOG_MAX
      = Real.cos (atan2 y x) * Real.sqrt (x ^ 2 + y ^ 2) * (ANALOG_MAX / max |x| |y|) := by
    ring
  have e2 : Real.sin (atan2 y x) * (Real.sqrt (x ^ 2 + y ^ 2) / max |x| |y|) * ANALOG_MAX
      = Real.sin (atan2 y x) * Real.sqrt (x ^ 2 + y ^ 2) * (ANALOG_MAX / max |x| |y|) := by
    ring
  rw [e1, e2, h1, h2]

theorem evict_eq_filter (window now : ℚ) (l : List MouseSample)
    (hp : List.Pairwise (fun u v : MouseSample => u.2.2 ≤ v.2.2) l) :
    evict window now l = List.filter (fun u => decide (now - u.2.2 ≤ window)) l := by
  induction l with
  | nil => rfl
  | cons shead rest ih =>
    rw [List.pairwise_cons] at hp
    by_cases h : now - shead.2.2 > window
    · have hd : (decide (now - shead.2.2 ≤ window)) = false := by
        simpa using not_le.mpr h
      simp only [evict, if_pos h, List.filter_cons, hd]
      exact ih hp.2
    · have hle : now - shead.2.2 ≤ window := not_lt.mp h
      have hd : (decide (now - shead.2.2 ≤ window)) = true := by simpa using hle
      simp only [evict, if_neg h, List.filter_cons, hd]
      have hall : ∀ u ∈ rest, (fun u : MouseSample => decide (now - u.2.2 ≤ window)) u = true := by
        intro u hu
        have h1 : shead.2.2 ≤ u.2.2 := hp.1 u hu
        simp only [decide_eq_true_eq]
        linarith
      rw [List.filter_eq_self.mpr hall]
      simp

theorem evict_suffix (window now : ℚ) (l : List MouseSample) :
    evict window now l <:+ l := by
  induction l with
  | nil => exact List.suffix_refl _
  | cons shead rest ih =>
    by_cases h : now - shead.2.2 > window
    · simp only [evict, if_pos h]
      exact ih.trans (List.suffix_cons shead rest)
    · simp only [evict, if_neg h]
      exact List.suffix_refl _

/-- Claim C10: circularized shaping and the W/A/S/D block write only the
left-stick axes, while linear shaping — including the unconditional
per-tick mouse-derived output of `update_analog` — writes only the
right-stick axes, leaving the other stick unchanged in each case. -/
theorem stick_separation (r : XUSBReport) (x y : ℝ) (cfg : Config) (st : EngineState)
    (now : ℚ) (w a s d : Bool) :
    (set_analog_circularized r x y).s_thumb_rx = r.s_thumb_rx ∧
    (set_analog_circularized r x y).s_thumb_ry = r.s_thumb_ry ∧
    (set_analog_linear r x y).s_thumb_lx = r.s_thumb_lx ∧
    (set_analog_linear r x y).s_thumb_ly = r.s_thumb_ly ∧
    (update_analog cfg st now).report.s_thumb_lx = st.report.s_thumb_lx ∧
    (update_analog cfg st now).report.s_thumb_ly = st.report.s_thumb_ly ∧
    (update_analog cfg st now).report =
      set_analog_linear st.report (updateAnalogVec cfg st.mouse_samples now).1
        (updateAnalogVec cfg st.mouse_samples now).2 ∧
    (wasd_write r w a s d).s_thumb_rx = r.s_thumb_rx ∧
    (wasd_write r w a s d).s_thumb_ry = r.s_thumb_ry :=
  ⟨rfl, rfl, rfl, rfl, rfl, rfl, rfl, rfl, rfl⟩

/-- Claim C4 (amended): the `Event::Reset` arm resets the report to the
all-zero default (buttons, triggers, both sticks) and the mouse-button
trackers to `Up`, for every prior state; the analog-lock fields and the
sample queue are left unchanged. -/
theorem reset_zeroes_report_not_lock (st : EngineState) :
    (handle_reset st).report = XUSBReport.default ∧
    (handle_reset st).report.w_buttons = 0 ∧
    (handle_reset st).report.b_left_trigger = 0 ∧
    (handle_reset st).report.b_right_trigger = 0 ∧
    (handle_reset st).report.s_thumb_lx = 0 ∧
    (handle_reset st).report.s_thumb_ly = 0 ∧
    (handle_reset st).report.s_thumb_rx = 0 ∧
    (handle_reset st).report.s_thumb_ry = 0 ∧
    (handle_reset st).mouse_button_states = (KeyState.Up, KeyState.Up) ∧
    (handle_reset st).analog_locked = st.analog_locked ∧
    (handle_reset st).analog_lock_end = st.analog_lock_end ∧
    (handle_reset st).analog_lock_x = st.analog_lock_x ∧
    (handle_reset st).analog_lock_y = st.analog_lock_y ∧
    (handle_reset st).mouse_samples = st.mouse_samples :=
  ⟨rfl, rfl, rfl, rfl, rfl, rfl, rfl, rfl, rfl, rfl, rfl, rfl, rfl, rfl⟩

/-- Claim C4, counterexample to the claim as stated: processing a Reset in
a state with an active analog lock leaves the lock active (the Reset arm
touches only the report and the mouse-button trackers). -/
theorem reset_keeps_lock_state :
    stJ.analog_locked = true ∧ stJ.analog_lock_end = 1/20 ∧
    (handle_reset stJ).analog_locked = true ∧
    (handle_reset stJ).analog_lock_x = 0 ∧
    (handle_reset stJ).analog_lock_y = 1 :=
  ⟨rfl, rfl, rfl, rfl, rfl⟩

/-- Claim C7 (amended): circularized shaping computes `angle = atan2 y x`
and `radius = hypot x y` with no clamp (this code has no radius-limit
feature), so the real-valued projection is exactly `(x, y)` scaled by
`ANALOG_MAX` and exceeds the signed 16-bit range whenever the input
leaves the unit square; the values stored in the report stay in range only
because the `as i16` conversion saturates. -/
theorem circularized_unclamped (r : XUSBReport) (x y : ℝ) :
    setAnalogCircularizedVec x y = (x * ANALOG_MAX, y * ANALOG_MAX) ∧
    -32768 ≤ (set_analog_circularized r x y).s_thumb_lx ∧
    (set_analog_circularized r x y).s_thumb_lx ≤ 32767 ∧
    -32768 ≤ (set_analog_circularized r x y).s_thumb_ly ∧
    (set_analog_circularized r x y).s_thumb_ly ≤ 32767 :=
  ⟨circ_vec_eq x y, (f64_as_i16_bounds _).1, (f64_as_i16_bounds _).2,
   (f64_as_i16_bounds _).1, (f64_as_i16_bounds _).2⟩

/-- Claim C7, counterexample to the claim as stated: at input `(2, 0)` the
source's circularized projection is `(65536, 0)`, while the spec's
clamped-radius version yields `(32768, 0)`; in particular the source's
real-valued stick value exceeds `32767`. -/
theorem circularized_exceeds_range :
    setAnalogCircularizedVec 2 0 = ((65536 : ℝ), 0) ∧
    setAnalogCircularizedSpecVec 2 0 = ((32768 : ℝ), 0) ∧
    setAnalogCircularizedVec 2 0 ≠ setAnalogCircularizedSpecVec 2 0 ∧
    (32767 : ℝ) < (setAnalogCircularizedVec 2 0).1 := by
  have hs : Real.sqrt ((2 : ℝ) ^ 2 + 0 ^ 2) = 2 := by
    rw [show ((2 : ℝ) ^ 2 + 0 ^ 2) = 2 ^ 2 by norm_num]
    exact Real.sqrt_sq (by norm_num)
  have hc : Real.cos (atan2 0 2) = 1 := by
    have h := cos_atan2_mul 2 0
    rw [hs] at h
    linarith
  have hsin : Real.sin (atan2 0 2) = 0 := by
    have h := sin_atan2_mul 2 0
    rw [hs] at h
    linarith
  have h1 : setAnalogCircularizedVec 2 0 = ((65536 : ℝ), 0) := by
    rw [circ_vec_eq]
    unfold ANALOG_MAX
    norm_num
  have h2 : setAnalogCircularizedSpecVec 2 0 = ((32768 : ℝ), 0) := by
    unfold setAnalogCircularizedSpecVec
    rw [hs, hc, hsin]
    unfold ANALOG_MAX
    norm_num
  refine ⟨h1, h2, ?_, ?_⟩
  · rw [h1, h2]
    intro hcontra
    have := congrArg Prod.fst hcontra
    norm_num at this
  · rw [h1]
    norm_num

/-- Claim C8 (amended): `handle_bind` on an input with no entry in the
bind table is a no-op — the whole engine state is returned unchanged and
no tone-generator call is made. (The event handling around it still
mutates other state; see the counterexample.) -/
theorem handle_bind_unbound_noop (cfg : Config) (st : EngineState) (bind : Bind)
    (state : KeyState) (now : ℚ) (h : findAction cfg.binds bind = none) :
    handle_bind cfg st bind state now = (st, []) := by
  unfold handle_bind
  rw [h]

theorem handle_bind_unbound_noop_witness :
    findAction cfg0.binds (Bind.Keyboard 99) = none ∧
    handle_bind cfg0 st0 (Bind.Keyboard 99) KeyState.Down 0 = (st0, []) :=
  ⟨rfl, handle_bind_unbound_noop cfg0 st0 (Bind.Keyboard 99) KeyState.Down 0 rfl⟩

/-- Claim C8, counterexample to the claim as stated: a keyboard event for
the unbound W key is not a no-op on the engine state — the W/A/S/D block
of the event loop writes the left stick regardless of the bind table. -/
theorem unbound_wasd_key_changes_report :
    findAction cfg0.binds (Bind.Keyboard scanW) = none ∧
    ls0.engine.report.s_thumb_ly = 0 ∧
    (dispatchEvent cfg0 ls0 (Event.Keyboard scanW KeyState.Down) 0).1.engine.report.s_thumb_ly
      = 32767 := by
  refine ⟨rfl, rfl, ?_⟩
  rfl

/-- Claim C2 (code bug): `handle_bind` returns immediately when the bind
resolves to a `ControllerAction::Analog` effect — on press as well as on
release nothing changes and no lock is entered, although the spec requires
press to enter the locked state with the bound vector. The source marks
the spot with a `TODO: proper analog binds`. -/
theorem analog_override_not_implemented :
    findAction cfgAnalog.binds (Bind.Keyboard 17) =
      some (ControllerAction.Analog (1/2) (1/2)) ∧
    handle_bind cfgAnalog st0 (Bind.Keyboard 17) KeyState.Down 0 = (st0, []) ∧
    handle_bind cfgAnalog st0 (Bind.Keyboard 17) KeyState.Up 0 = (st0, []) ∧
    st0.analog_locked = false :=
  ⟨rfl, rfl, rfl, rfl⟩

/-- Claim C9 (amended): the threshold comparison and the single
tone-generator call live in `set_analog`, which runs only during
dodge-jump resolution — not once per tick: the per-tick path
(`update_analog`) calls `set_analog_linear` directly and performs no alert
call. When the generator is configured, `set_analog` makes exactly one
`enable` call whose argument is `max |x| |y| ≥ threshold`. -/
theorem alert_only_in_set_analog (cfg : Config) (r : XUSBReport) (x y : ℝ)
    (h : cfg.oversteer_alert_enabled = true) :
    (set_analog cfg r x y).2 = [max |x| |y| ≥ cfg.oversteer_alert_threshold] ∧
    ∀ (ls : LoopState) (now : ℚ), (tick cfg ls none now).2 = [] := by
  constructor
  · unfold set_analog
    rw [if_pos h]
  · intro ls now
    rfl

theorem alert_only_in_set_analog_witness :
    cfgAlert.oversteer_alert_enabled = true ∧
    (set_analog cfgAlert report0 2 0).2 =
      [max |(2 : ℝ)| |(0 : ℝ)| ≥ cfgAlert.oversteer_alert_threshold] ∧
    (tick cfgAlert ls0 none 0).2 = [] := by
  have h := alert_only_in_set_analog cfgAlert report0 2 0 rfl
  exact ⟨rfl, h.1, h.2 ls0 0⟩

/-- Claim C9, counterexample to the claim as stated: a tick of the poll
loop with no event (the common case) performs zero tone-generator calls,
not exactly one, even with the alert feature enabled; the same holds for a
tick carrying a non-jump event. -/
theorem tick_makes_no_alert_call :
    cfgAlert.oversteer_alert_enabled = true ∧
    (tick cfgAlert ls0 none 0).2 = [] ∧
    (tick cfgAlert ls0 (some (Event.Keyboard 5 KeyState.Down)) 0).2 = [] :=
  ⟨rfl, rfl, rfl⟩

/-- Claim C5: the dodge vector is a function of which directional gestures
are currently active only (hence independent of press order): Right and
Left contribute `+1` and `-1` to the x axis, Forwards and Backwards `+1`
and `-1` to the y axis; Forwards with Left held yields `(-1, 1)`, and
equal Forwards/Backwards activity cancels the y axis; `handle_jump` locks
exactly this vector for `dodge_lock_duration` from the jump. -/
theorem dodge_vector_spec (cfg : Config) (r : XUSBReport) :
    dodgeVector cfg r =
      ((if dodge_action_pressed cfg r DodgeAction.Right = true then (1 : ℝ) else 0) -
        (if dodge_action_pressed cfg r DodgeAction.Left = true then 1 else 0),
       (if dodge_action_pressed cfg r DodgeAction.Forwards = true then (1 : ℝ) else 0) -
        (if dodge_action_pressed cfg r DodgeAction.Backwards = true then 1 else 0)) ∧
    (dodge_action_pressed cfg r DodgeAction.Forwards = true →
     dodge_action_pressed cfg r DodgeAction.Left = true →
     dodge_action_pressed cfg r DodgeAction.Backwards = false →
     dodge_action_pressed cfg r DodgeAction.Right = false →
     dodgeVector cfg r = (-1, 1)) ∧
    (dodge_action_pressed cfg r DodgeAction.Forwards =
       dodge_action_pressed cfg r DodgeAction.Backwards →
     (dodgeVector cfg r).2 = 0) ∧
    (∀ (st : EngineState) (now : ℚ), st.report = r →
      (handle_jump cfg st now).1.analog_lock_x = (dodgeVector cfg r).1 ∧
      (handle_jump cfg st now).1.analog_lock_y = (dodgeVector cfg r).2 ∧
      (handle_jump cfg st now).1.analog_locked = true ∧
      (handle_jump cfg st now).1.analog_lock_end = now + cfg.dodge_lock_duration) := by
  have key : dodgeVector cfg r =
      ((if dodge_action_pressed cfg r DodgeAction.Right = true then (1 : ℝ) else 0) -
        (if dodge_action_pressed cfg r DodgeAction.Left = true then 1 else 0),
       (if dodge_action_pressed cfg r DodgeAction.Forwards = true then (1 : ℝ) else 0) -
        (if dodge_action_pressed cfg r DodgeAction.Backwards = true then 1 else 0)) := by
    unfold dodgeVector
    cases hF : dodge_action_pressed cfg r DodgeAction.Forwards <;>
      cases hB : dodge_action_pressed cfg r DodgeAction.Backwards <;>
        cases hL : dodge_action_pressed cfg r DodgeAction.Left <;>
          cases hR : dodge_action_pressed cfg r DodgeAction.Right <;>
            simp [hF, hB, hL, hR]
  refine ⟨key, ?_, ?_, ?_⟩
  · intro hF hL hB hR
    rw [key, hF, hL, hB, hR]
    norm_num
  · intro hFB
    rw [key]
    cases hF : dodge_action_pressed cfg r DodgeAction.Forwards <;>
      rw [hF] at hFB <;> rw [← hFB] <;> norm_num
  · intro st now hst
    subst hst
    exact ⟨rfl, rfl, rfl, rfl⟩

theorem dodge_vector_spec_witness :
    dodge_action_pressed cfg5 r5 DodgeAction.Forwards = true ∧
    dodge_action_pressed cfg5 r5 DodgeAction.Left = true ∧
    dodgeVector cfg5 r5 = (-1, 1) :=
  ⟨rfl, rfl, (dodge_vector_spec cfg5 r5).2.1 rfl rfl rfl rfl⟩

/-- Claim C6: inside the unit square (`max |x| |y| ≤ 1`) linear shaping is
the direct per-axis scale by `ANALOG_MAX` with no correction; outside it,
the direction `atan2 y x` of the output is preserved exactly while the
magnitude is the input magnitude divided by the overshoot `max |x| |y|`
(scaled by `ANALOG_MAX`), i.e. the vector is pulled onto the unit-square
boundary instead of being clipped per axis. -/
theorem linear_shaping_correct (x y : ℝ) :
    (max |x| |y| ≤ 1 → setAnalogLinearVec x y = (x * ANALOG_MAX, y * ANALOG_MAX)) ∧
    (1 < max |x| |y| →
      atan2 (setAnalogLinearVec x y).2 (setAnalogLinearVec x y).1 = atan2 y x ∧
      Real.sqrt ((setAnalogLinearVec x y).1 ^ 2 + (setAnalogLinearVec x y).2 ^ 2) =
        Real.sqrt (x ^ 2 + y ^ 2) / max |x| |y| * ANALOG_MAX ∧
      max |(setAnalogLinearVec x y).1| |(setAnalogLinearVec x y).2| = ANALOG_MAX) := by
  constructor
  · exact linear_vec_small x y
  · intro h
    have hov : (0 : ℝ) < max |x| |y| := lt_trans one_pos h
    have hM : (0 : ℝ) < ANALOG_MAX := by unfold ANALOG_MAX; norm_num
    have hc : (0 : ℝ) < ANALOG_MAX / max |x| |y| := div_pos hM hov
    rw [linear_vec_big x y h]
    refine ⟨?_, ?_, ?_⟩
    · show atan2 (y * (ANALOG_MAX / max |x| |y|)) (x * (ANALOG_MAX / max |x| |y|)) = atan2 y x
      unfold atan2
      have hmk : (⟨x * (ANALOG_MAX / max |x| |y|), y * (ANALOG_MAX / max |x| |y|)⟩ : ℂ)
          = ((ANALOG_MAX / max |x| |y| : ℝ) : ℂ) * ⟨x, y⟩ := by
        apply Complex.ext
        · simp [Complex.mul_re]
          ring
        · simp [Complex.mul_im]
          ring
      rw [hmk, Complex.arg_real_mul _ hc]
    · have e : (x * (ANALOG_MAX / max |x| |y|)) ^ 2 + (y * (ANALOG_MAX / max |x| |y|)) ^ 2
          = (x ^ 2 + y ^ 2) * (ANALOG_MAX / max |x| |y|) ^ 2 := by ring
      show Real.sqrt ((x * (ANALOG_MAX / max |x| |y|)) ^ 2
          + (y * (ANALOG_MAX / max |x| |y|)) ^ 2) = _
      rw [e, Real.sqrt_mul (by positivity), Real.sqrt_sq hc.le]
      ring
    · show max |x * (ANALOG_MAX / max |x| |y|)| |y * (ANALOG_MAX / max |x| |y|)|
          = ANALOG_MAX
      rw [abs_mul, abs_mul, abs_of_pos hc, ← max_mul_of_nonneg _ _ hc.le,
        div_eq_mul_inv, ← mul_assoc, mul_comm (max |x| |y|) ANALOG_MAX, mul_assoc,
        mul_inv_cancel₀ (ne_of_gt hov), mul_one]

theorem linear_shaping_correct_witness :
    (max |(1 : ℝ)| |(0 : ℝ)| ≤ 1 ∧
      setAnalogLinearVec 1 0 = ((1 : ℝ) * ANALOG_MAX, (0 : ℝ) * ANALOG_MAX)) ∧
    (1 < max |(2 : ℝ)| |(0 : ℝ)| ∧
      atan2 (setAnalogLinearVec 2 0).2 (setAnalogLinearVec 2 0).1 = atan2 0 2) := by
  have h1 : max |(1 : ℝ)| |(0 : ℝ)| ≤ 1 := by
    rw [abs_one, abs_zero]
    norm_num
  have h2 : 1 < max |(2 : ℝ)| |(0 : ℝ)| := by
    rw [abs_of_nonneg (by norm_num : (0 : ℝ) ≤ 2), abs_zero]
    rw [max_eq_left (by norm_num : (0 : ℝ) ≤ 2)]
    norm_num
  exact ⟨⟨h1, (linear_shaping_correct 1 0).1 h1⟩,
         ⟨h2, ((linear_shaping_correct 2 0).2 h2).1⟩⟩

/-- Claim C3: on a tick, with the sample queue ordered by non-decreasing
timestamps (its documented invariant) and the axis masks at their default,
eviction removes exactly the samples whose age strictly exceeds the
sampling window (the remainder being the maximal in-window suffix), and
the vector handed to shaping is the unweighted component-wise sum of the
remaining samples scaled by `sensitivity / (K * sample_window)` with
`K = 10000`, y negated — zero when the queue empties. -/
theorem free_tick_estimator (cfg : Config) (st : EngineState) (now : ℚ)
    (hmask : cfg.analog_mask = (true, true))
    (hsorted : List.Pairwise (fun u v : MouseSample => u.2.2 ≤ v.2.2) st.mouse_samples) :
    evict cfg.sample_window now st.mouse_samples =
      List.filter (fun u => decide (now - u.2.2 ≤ cfg.sample_window)) st.mouse_samples ∧
    evict cfg.sample_window now st.mouse_samples <:+ st.mouse_samples ∧
    updateAnalogVec cfg st.mouse_samples now =
      (((sampleSum (evict cfg.sample_window now st.mouse_samples)).1 : ℝ) *
         (cfg.sensitivity / (10000 * (cfg.sample_window : ℝ))),
       -(((sampleSum (evict cfg.sample_window now st.mouse_samples)).2 : ℝ) *
         (cfg.sensitivity / (10000 * (cfg.sample_window : ℝ))))) ∧
    (evict cfg.sample_window now st.mouse_samples = [] →
      updateAnalogVec cfg st.mouse_samples now = (0, 0)) ∧
    (update_analog cfg st now).report =
      set_analog_linear st.report (updateAnalogVec cfg st.mouse_samples now).1
        (updateAnalogVec cfg st.mouse_samples now).2 := by
  have h1 : cfg.analog_mask.1 = true := by rw [hmask]
  have h2 : cfg.analog_mask.2 = true := by rw [hmask]
  have hvec : updateAnalogVec cfg st.mouse_samples now =
      (((sampleSum (evict cfg.sample_window now st.mouse_samples)).1 : ℝ) *
         (cfg.sensitivity / (10000 * (cfg.sample_window : ℝ))),
       -(((sampleSum (evict cfg.sample_window now st.mouse_samples)).2 : ℝ) *
         (cfg.sensitivity / (10000 * (cfg.sample_window : ℝ))))) := by
    unfold updateAnalogVec
    rw [if_pos h1, if_pos h2]
    rw [neg_mul]
  refine ⟨evict_eq_filter cfg.sample_window now st.mouse_samples hsorted,
    evict_suffix cfg.sample_window now st.mouse_samples, hvec, ?_, rfl⟩
  intro hempty
  rw [hvec, hempty]
  show (((0 : Int) : ℝ) * _, -(((0 : Int) : ℝ) * _)) = ((0 : ℝ), (0 : ℝ))
  norm_num

theorem free_tick_estimator_witness :
    cfg0.analog_mask = (true, true) ∧
    List.Pairwise (fun u v : MouseSample => u.2.2 ≤ v.2.2) st3.mouse_samples ∧
    evict cfg0.sample_window 10 st3.mouse_samples = [(3, 4, 10)] ∧
    updateAnalogVec cfg0 st3.mouse_samples 10 =
      (((3 : ℤ) : ℝ) * (cfg0.sensitivity / (10000 * (cfg0.sample_window : ℝ))),
       -(((4 : ℤ) : ℝ) * (cfg0.sensitivity / (10000 * (cfg0.sample_window : ℝ))))) := by
  have hs : List.Pairwise (fun u v : MouseSample => u.2.2 ≤ v.2.2) st3.mouse_samples := by
    decide
  have h := free_tick_estimator cfg0 st3 10 rfl hs
  have he : evict cfg0.sample_window 10 st3.mouse_samples = [(3, 4, 10)] := by
    norm_num [evict, cfg0, st3, st0]
  have hv := h.2.2.1
  rw [he] at hv
  refine ⟨rfl, hs, he, ?_⟩
  rw [hv]
  norm_num [sampleSum]

/-- Claim C1 (code bug): `update_analog` never reads `analog_locked` or
`analog_lock_end`. In a state with an active lock (vector `(0, 1)`,
expiry `1/20` s) and a queued mouse sample, the tick at `t = 1/100`
(inside the lock window) writes the live-mouse linear output `16384` to
the right stick instead of the locked vector, and the tick at `t = 100`
(long after expiry) still carries the dodge projection `32767` on the left
stick — residual lock-vector leakage; the lock flag itself stays set
forever. -/
theorem locked_tick_ignores_lock :
    stJ.analog_locked = true ∧
    (1/100 : ℚ) ≤ stJ.analog_lock_end ∧
    stJ.analog_lock_x = 0 ∧ stJ.analog_lock_y = 1 ∧
    (update_analog cfg0 stJ (1/100)).report.s_thumb_rx = 16384 ∧
    (update_analog cfg0 stJ (1/100)).report.s_thumb_ry = 0 ∧
    stJ.analog_lock_end < 100 ∧
    (update_analog cfg0 stJ 100).report.s_thumb_ly = 32767 ∧
    (update_analog cfg0 stJ 100).report.s_thumb_rx = 0 ∧
    (update_analog cfg0 stJ 100).report.s_thumb_ry = 0 ∧
    (update_analog cfg0 stJ 100).analog_locked = true := by
  have hss1 : sampleSum (evict cfg0.sample_window (1/100) stJ.mouse_samples) = (5000, 0) := by
    norm_num [evict, sampleSum, cfg0, stJ]
  have hv1 : updateAnalogVec cfg0 stJ.mouse_samples (1/100) = ((1 : ℝ)/2, 0) := by
    unfold updateAnalogVec
    rw [hss1]
    show (((5000 : ℤ) : ℝ) * (cfg0.sensitivity / (10000 * (cfg0.sample_window : ℝ))),
      (-((0 : ℤ) : ℝ)) * (cfg0.sensitivity / (10000 * (cfg0.sample_window : ℝ)))) = _
    norm_num [cfg0]
  have hss2 : sampleSum (evict cfg0.sample_window 100 stJ.mouse_samples) = (0, 0) := by
    norm_num [evict, sampleSum, cfg0, stJ]
  have hv2 : updateAnalogVec cfg0 stJ.mouse_samples 100 = ((0 : ℝ), 0) := by
    unfold updateAnalogVec
    rw [hss2]
    show (((0 : ℤ) : ℝ) * (cfg0.sensitivity / (10000 * (cfg0.sample_window : ℝ))),
      (-((0 : ℤ) : ℝ)) * (cfg0.sensitivity / (10000 * (cfg0.sample_window : ℝ)))) = _
    norm_num
  have hlin1 : setAnalogLinearVec ((1 : ℝ)/2) 0 = ((1/2) * ANALOG_MAX, 0 * ANALOG_MAX) := by
    apply linear_vec_small
    rw [abs_of_nonneg (by norm_num : (0 : ℝ) ≤ 1/2), abs_zero]
    norm_num
  have hlin2 : setAnalogLinearVec (0 : ℝ) 0 = (0 * ANALOG_MAX, 0 * ANALOG_MAX) := by
    apply linear_vec_small
    rw [abs_zero]
    norm_num
  have hrx1 : f64_as_i16 ((1/2 : ℝ) * ANALOG_MAX) = 16384 := by
    apply f64_as_i16_eval _ 16384 _ (by norm_num) (by norm_num)
    unfold ANALOG_MAX
    norm_num
  have hzero : f64_as_i16 ((0 : ℝ) * ANALOG_MAX) = 0 := by
    apply f64_as_i16_eval _ 0 _ (by norm_num) (by norm_num)
    norm_num
  refine ⟨rfl, by norm_num [stJ], rfl, rfl, ?_, ?_, by norm_num [stJ], rfl, ?_, ?_, rfl⟩
  · show f64_as_i16 (setAnalogLinearVec (updateAnalogVec cfg0 stJ.mouse_samples (1/100)).1
      (updateAnalogVec cfg0 stJ.mouse_samples (1/100)).2).1 = 16384
    rw [hv1]
    show f64_as_i16 (setAnalogLinearVec ((1 : ℝ)/2) 0).1 = 16384
    rw [hlin1]
    exact hrx1
  · show f64_as_i16 (setAnalogLinearVec (updateAnalogVec cfg0 stJ.mouse_samples (1/100)).1
      (updateAnalogVec cfg0 stJ.mouse_samples (1/100)).2).2 = 0
    rw [hv1]
    show f64_as_i16 (setAnalogLinearVec ((1 : ℝ)/2) 0).2 = 0
    rw [hlin1]
    exact hzero
  · show f64_as_i16 (setAnalogLinearVec (updateAnalogVec cfg0 stJ.mouse_samples 100).1
      (updateAnalogVec cfg0 stJ.mouse_samples 100).2).1 = 0
    rw [hv2]
    show f64_as_i16 (setAnalogLinearVec (0 : ℝ) 0).1 = 0
    rw [hlin2]
    exact hzero
  · show f64_as_i16 (setAnalogLinearVec (updateAnalogVec cfg0 stJ.mouse_samples 100).1
      (updateAnalogVec cfg0 stJ.mouse_samples 100).2).2 = 0
    rw [hv2]
    show f64_as_i16 (setAnalogLinearVec (0 : ℝ) 0).2 = 0
    rw [hlin2]
    exact hzero

end RLM2C
